import Mathlib

/-!
Verification of the context-reports ingestion/retrieval core against its
natural-language specification.

The repository contains two variants of the pipeline:
* `earthing-report-generator` — `backend/app/ingestion/chunker.py`
  (`DocumentChunker._chunk_text`, `_split_by_sections`, `chunk_document`),
  `backend/app/rag/retriever.py` (`Retriever.retrieve`) and
  `backend/app/rag/vector_store.py` (`VectorStore.add_chunks`).
* `report-generator` — `backend/app/ingestion/chunker.py`
  (`DocumentChunker._split_text`) and `backend/app/rag/vector_store.py`
  (`VectorStore.add_chunks`, `search`, `delete_by_source`,
  `_flatten_metadata`).

Text is modelled as `List Char`; Python string slicing, `str.strip`,
`str.split` and the regular-expression scans used by the chunkers are
embedded as executable functions below.
-/

namespace ContextReports

abbrev Text := List Char

/-- Python's `\s` whitespace class restricted to ASCII, which is all the
chunker regexes rely on: space, tab, newline, carriage return, vertical
tab and form feed.  Also the character class of `str.strip()`. -/
def isPySpace (c : Char) : Bool :=
  c = ' ' || c = '\t' || c = '\n' || c = '\r' || c = '\x0b' || c = '\x0c'

/-- Python `str.strip()`: drop whitespace from both ends. -/
def strip (t : Text) : Text :=
  ((t.dropWhile isPySpace).reverse.dropWhile isPySpace).reverse

/-- Python slicing `text[a:b]` for `0 ≤ a ≤ b` (indices past the end are
clipped, as in Python). -/
def slice (t : Text) (a b : Nat) : Text :=
  (t.take b).drop a

/-- Python `text.split('\n')`.  `"".split('\n') = ['']`. -/
def splitOnNl : Text → List Text
  | [] => [[]]
  | c :: rest =>
    if c = '\n' then [] :: splitOnNl rest
    else
      match splitOnNl rest with
      | p :: ps => (c :: p) :: ps
      | [] => [[c]]

/-- Scanner for `re.finditer(r'\n\n+', w)`: each match is a maximal run
of at least two newlines, and its `m.end()` is the position right after
the run.  `pos` is the absolute position of the head of the remaining
text and `run` the length of the newline run ending just before it. -/
def paraScan : Text → Nat → Nat → List Nat
  | [], pos, run => if 2 ≤ run then [pos] else []
  | c :: rest, pos, run =>
    if c = '\n' then paraScan rest (pos + 1) (run + 1)
    else (if 2 ≤ run then [pos] else []) ++ paraScan rest (pos + 1) 0

/-- End positions (`m.end()`) of the matches of
`re.finditer(r'\n\n+', w)`, in increasing order. -/
def paraEnds (w : Text) (pos : Nat) : List Nat :=
  paraScan w pos 0

/-- Scanner for `re.finditer(r'\.\s+', w)`: a match is a period followed
by a maximal nonempty whitespace run, non-overlapping, and `m.end()` is
the position right after that run.  `afterDot` records that the
previous character was a `'.'` not yet followed by whitespace; `inRun`
that the scan is inside the whitespace run of a match.  A non-space
character (or the end of the window) closes a running match, emitting
its end position. -/
def sentScan : Text → Nat → Bool → Bool → List Nat
  | [], pos, _, inRun => if inRun then [pos] else []
  | c :: rest, pos, afterDot, inRun =>
    if isPySpace c then
      if afterDot || inRun then sentScan rest (pos + 1) false true
      else sentScan rest (pos + 1) false false
    else
      (if inRun then [pos] else []) ++ sentScan rest (pos + 1) (c = '.') false

/-- End positions of the matches of `re.finditer(r'\.\s+', w)`, in
increasing order. -/
def sentenceEnds (w : Text) (pos : Nat) : List Nat :=
  sentScan w pos false false

/-- End positions of the matches of `re.finditer(r'\n', w)`. -/
def newlineEnds : Text → Nat → List Nat
  | [], _ => []
  | c :: rest, pos =>
    if c = '\n' then (pos + 1) :: newlineEnds rest (pos + 1)
    else newlineEnds rest (pos + 1)

/-- End positions of the matches of `re.finditer(r'\s', w)`. -/
def spaceEnds : Text → Nat → List Nat
  | [], _ => []
  | c :: rest, pos =>
    if isPySpace c then (pos + 1) :: spaceEnds rest (pos + 1)
    else spaceEnds rest (pos + 1)

/-! ## earthing-report-generator `DocumentChunker._chunk_text` -/

/-- The smart-boundary selection of `_chunk_text` (chunker.py lines
117-144): `end = start + chunk_size`; when `end < len(text)` the window
`text[start:end]` is scanned, in priority order, for the last paragraph
break, sentence boundary, line break, or word boundary, and `end` is
moved to `start +` that match end. -/
def pickEnd (text : Text) (S start : Nat) : Nat :=
  let e0 := start + S
  if e0 < text.length then
    let w := slice text start e0
    match (paraEnds w 0).getLast? with
    | some p => start + p
    | none =>
      match (sentenceEnds w 0).getLast? with
      | some p => start + p
      | none =>
        match (newlineEnds w 0).getLast? with
        | some p => start + p
        | none =>
          match (spaceEnds w 0).getLast? with
          | some p => start + p
          | none => e0
  else e0

/-- One `while` loop of `_chunk_text` (chunker.py lines 109-165).  `fuel`
is the number of full iterations the code's own counter still permits:
the body runs `iteration += 1; if iteration > max_iterations: break`, so
with `fuel = max_iterations` full-body executions the break fires on the
next entry — modelled by returning the accumulator when `fuel = 0` while
`start < len(text)`.  Kept chunks must satisfy
`chunk_text and len(chunk_text) > 50`.  The next start is
`end - overlap` when `end < len(text)` (else `end`); if that does not
advance, the code forces `start + max(1, (chunk_size - overlap) // 2)`.
Nat subtraction truncates `end - overlap` at 0, which agrees with the
Python value for the guard `next_start <= start` since `start ≥ 0`; and
`max 1 ((S - O) / 2)` equals Python `max(1, (S-O)//2)` also when
`O ≥ S`, where the Python floor quotient is ≤ 0 and `max` picks 1. -/
def chunkLoop (text : Text) (S O : Nat) : Nat → Nat → List Text → List Text
  | 0, _, acc => acc.reverse
  | fuel + 1, start, acc =>
    if start < text.length then
      let e := pickEnd text S start
      let e2 := if e ≤ start then start + 1 else e
      let c := strip (slice text start e2)
      let acc2 := if 50 < c.length then c :: acc else acc
      let ns0 := if e2 < text.length then e2 - O else e2
      let ns := if ns0 ≤ start then start + max 1 ((S - O) / 2) else ns0
      chunkLoop text S O fuel ns acc2
    else acc.reverse

/-- The `max_iterations = (len(text) // (chunk_size - overlap)) + 10`
computation of chunker.py line 107.  Python `//` is floor division
(`Int.fdiv`) and raises `ZeroDivisionError` when
`chunk_size = overlap`, modelled as `Except.error`. -/
def maxIterations (L S O : Nat) : Except Unit Int :=
  if S = O then .error ()
  else .ok (Int.fdiv (L : Int) ((S : Int) - (O : Int)) + 10)

/-- `DocumentChunker._chunk_text` of earthing-report-generator
(chunker.py lines 86-167), with `S = chunk_size`, `O = chunk_overlap`.
Texts no longer than `chunk_size` yield the single chunk
`text.strip()` unconditionally; longer texts run the windowed loop,
whose iteration budget `max_iterations` is negative when
`overlap > chunk_size` (loop breaks immediately, `Int.toNat` gives 0)
and undefined (`ZeroDivisionError`) when `overlap = chunk_size`. -/
def chunkText (S O : Nat) (text : Text) : Except Unit (List Text) :=
  if text.length ≤ S then .ok [strip text]
  else
    match maxIterations text.length S O with
    | .error e => .error e
    | .ok m => .ok (chunkLoop text S O m.toNat 0 [])

/-! ## earthing-report-generator `_split_by_sections` and `chunk_document` -/

def isUpperAZ (c : Char) : Bool := 'A' ≤ c && c ≤ 'Z'

def isDigit09 (c : Char) : Bool := '0' ≤ c && c ≤ '9'

/-- The header test of `_split_by_sections` (chunker.py line 70):
`re.match(r'^([A-Z][A-Z\s\d\.]*)\s*$', line.strip()) and
len(line.strip()) > 3`.  On the stripped line the trailing `\s*$`
consumes nothing, so the regex match is: first character in `A-Z`,
every further character in `A-Z`, whitespace, digits or `.`. -/
def isSectionHeader (line : Text) : Bool :=
  let s := strip line
  (match s with
   | [] => false
   | c :: rest =>
     isUpperAZ c &&
       rest.all (fun d => isUpperAZ d || isPySpace d || isDigit09 d || d = '.'))
  && 3 < s.length

/-- The accumulation loop of `_split_by_sections` (chunker.py lines
63-82): walk the lines; a header line closes the current section (kept
when its stripped text is non-empty) and starts a new one named by the
stripped header; other lines are appended, each with the `'\n'` that
`split('\n')` removed. -/
def sbsGo (curName : Text) (cur : Text) (acc : List (Text × Text)) :
    List Text → List (Text × Text)
  | [] => if strip cur ≠ [] then ((cur, curName) :: acc).reverse else acc.reverse
  | line :: rest =>
    if isSectionHeader line then
      let acc2 := if strip cur ≠ [] then (cur, curName) :: acc else acc
      sbsGo (strip line) (line ++ ['\n']) acc2 rest
    else sbsGo curName (cur ++ line ++ ['\n']) acc rest

/-- `DocumentChunker._split_by_sections` (chunker.py lines 53-84):
returns `(section_text, section_name)` pairs; when no section survives,
the fallback is the whole original text named `"Document"`. -/
def splitBySections (text : Text) : List (Text × Text) :=
  let sections := sbsGo ("Introduction".toList) [] [] (splitOnNl text)
  if sections = [] then [(text, "Document".toList)] else sections

/-- One chunk as returned by `chunk_document`: its text and the section
name (`section_type`).  The `chunk_index`/`total_chunks` metadata that
`chunk_document` attaches afterwards (lines 44-49) is the position in,
and the length of, the returned list. -/
structure Chunk where
  text : Text
  sectionType : Text
deriving DecidableEq, Repr

/-- The section loop of `chunk_document` (chunker.py lines 38-41):
chunk every section with `_chunk_text` and concatenate, propagating the
first exception. -/
def chunkSections (S O : Nat) : List (Text × Text) → Except Unit (List Chunk)
  | [] => .ok []
  | (t, name) :: rest =>
    match chunkText S O t with
    | .error e => .error e
    | .ok cs =>
      match chunkSections S O rest with
      | .error e => .error e
      | .ok more => .ok ((cs.map (fun c => ⟨c, name⟩)) ++ more)

/-- `DocumentChunker.chunk_document` of earthing-report-generator
(chunker.py lines 22-51) applied to `document['full_text']`. -/
def chunkDocument (S O : Nat) (fullText : Text) : Except Unit (List Chunk) :=
  chunkSections S O (splitBySections fullText)

/-! ## report-generator `DocumentChunker._split_text` -/

/-- The cut-point selection of report-generator `_split_text`
(chunker.py lines 101-114): `end = start + chunk_size`; when
`end < len(text)` move `end` to the last `\.\s+` match end in the
window, else to the last `\n` match end, else keep it. -/
def rgPickEnd (text : Text) (S start : Nat) : Nat :=
  let e0 := start + S
  if e0 < text.length then
    let w := slice text start e0
    match (sentenceEnds w 0).getLast? with
    | some p => start + p
    | none =>
      match (newlineEnds w 0).getLast? with
      | some p => start + p
      | none => e0
  else e0

/-- The start-position update of one iteration of report-generator
`_split_text` (chunker.py line 121): `start = end - overlap if
end < len(text) else end`, with no forward-progress guard.  The result
is an `Int` because the Python value can be negative or fail to
advance; the loop `while start < len(text)` keeps running as long as
this holds. -/
def rgNextStart (text : Text) (S O start : Nat) : Int :=
  let e := rgPickEnd text S start
  if e < text.length then (e : Int) - (O : Int) else (e : Int)

/-! ## earthing-report-generator `Retriever.retrieve` -/

/-- The distance-to-similarity conversion of `Retriever.retrieve`
(retriever.py line 62): `similarity = 1.0 - (distance / 2.0)`.
Distances and similarities are modelled as rationals. -/
def retrieverSimilarity (distance : ℚ) : ℚ :=
  1 - distance / 2

/-- One formatted result of `Retriever.retrieve` (retriever.py lines
68-73). -/
structure RetrieveResult where
  content : String
  metadata : List (String × String)
  similarity : ℚ
  distance : ℚ
deriving DecidableEq, Repr

/-- Stable insertion into a list sorted by non-increasing similarity:
the new element goes before the first element whose similarity is not
greater.  Together with `sortBySimilarity` this models Python's stable
`list.sort(key=lambda x: x['similarity'], reverse=True)`
(retriever.py line 76). -/
def insertBySimilarity (r : RetrieveResult) :
    List RetrieveResult → List RetrieveResult
  | [] => [r]
  | x :: xs =>
    if x.similarity ≤ r.similarity then r :: x :: xs
    else x :: insertBySimilarity r xs

/-- Stable sort by non-increasing similarity. -/
def sortBySimilarity : List RetrieveResult → List RetrieveResult
  | [] => []
  | x :: xs => insertBySimilarity x (sortBySimilarity xs)

/-- `Retriever.retrieve` of earthing-report-generator (retriever.py
lines 19-78) after the raw vector-store query: for each index into
`documents`, take `distances[i]` (when `i ≥ len(distances)` the code
uses `float('inf')`, whose similarity `-inf` is below every rational
`min_similarity`, so the entry is skipped — modelled by the `none`
branch), convert to similarity, drop entries with
`similarity < min_similarity`, and sort by similarity, highest first. -/
def retrieve (documents : List String) (distances : List ℚ)
    (metadatas : List (List (String × String))) (minSimilarity : ℚ) :
    List RetrieveResult :=
  if documents = [] then []
  else
    let formatted := (List.range documents.length).filterMap (fun i =>
      match distances[i]? with
      | none => none
      | some d =>
        let s := retrieverSimilarity d
        if s < minSimilarity then none
        else some ⟨documents.getD i "", metadatas.getD i [], s, d⟩)
    sortBySimilarity formatted

/-! ## report-generator `VectorStore.search` similarity -/

/-- The per-result score of report-generator `VectorStore.search`
(vector_store.py line 127): `"similarity_score": 1 - distance`.  Note
this is `1 - d`, not `1 - d/2`, and the collection of this variant is
created without `"hnsw:space": "cosine"` (lines 41-44). -/
def searchSimilarityScore (distance : ℚ) : ℚ :=
  1 - distance

/-! ## vector-store id assignment, `add_chunks` and `delete_by_source` -/

/-- A stored index entry: its id, the `source_file` metadata field and
the document text.  (The embedding vector and remaining metadata play
no role in the id/count claims.) -/
structure Entry where
  id : String
  sourceFile : String
  text : String
deriving DecidableEq, Repr

/-- `pathlib.Path(source_file).stem` for the plain relative/absolute
file names ingestion passes: the final path component without its last
extension. -/
def pathStem (s : String) : String :=
  let base := ((s.splitOn "/").getLastD "")
  let parts := base.splitOn "."
  if parts.length ≤ 1 then base
  else String.intercalate "." parts.dropLast

/-- An input chunk of report-generator `VectorStore.add_chunks`:
`chunk.get("source_file", "unknown")` and `chunk.get("chunk_id", i)`
with the enumeration index as default are modelled by always-present
fields, which is how ingestion populates them (`chunk_document` sets
both). -/
structure RGChunk where
  text : String
  sourceFile : String
  chunkId : Nat
deriving DecidableEq, Repr

/-- The id of report-generator `VectorStore.add_chunks`
(vector_store.py line 70):
`doc_id = f"{Path(source_file).stem}_chunk_{chunk_id}"`. -/
def reportGenDocId (sourceFile : String) (chunkId : Nat) : String :=
  pathStem sourceFile ++ "_chunk_" ++ toString chunkId

/-- The entry that report-generator `VectorStore.add_chunks` builds for
one chunk (vector_store.py lines 66-82): id from source stem and chunk
id, `source_file` metadata, and the chunk text. -/
def rgEntryOf (c : RGChunk) : Entry :=
  ⟨reportGenDocId c.sourceFile c.chunkId, c.sourceFile, c.text⟩

/-- report-generator `VectorStore.add_chunks` (vector_store.py lines
49-92): raise `ValueError` when `len(chunks) != len(embeddings)`
(before anything is stored), otherwise append one entry per chunk to
the collection. -/
def reportGenAddChunks (store : List Entry) (chunks : List RGChunk)
    (embeddings : List (List ℚ)) : Except String (List Entry) :=
  if chunks.length ≠ embeddings.length then
    .error "Number of chunks must match embeddings"
  else
    .ok (store ++ chunks.map rgEntryOf)

/-- report-generator `VectorStore.delete_by_source` (vector_store.py
lines 160-170): `collection.delete(where={"source_file": source_file})`
removes exactly the entries whose `source_file` metadata equals the
argument. -/
def deleteBySource (store : List Entry) (sourceFile : String) : List Entry :=
  store.filter (fun e => e.sourceFile ≠ sourceFile)

/-- The ids generated by earthing-report-generator
`VectorStore.add_chunks` (vector_store.py lines 125-126):
`timestamp = int(time.time() * 1000);
ids = [f"chunk_{timestamp}_{i}" for i in range(len(chunks))]` —
a function of the wall clock, not of the source document. -/
def earthingChunkIds (timestamp : Nat) (n : Nat) : List String :=
  (List.range n).map (fun i =>
    "chunk_" ++ toString timestamp ++ "_" ++ toString i)

/-- An input chunk of earthing-report-generator
`VectorStore.add_chunks`: only `chunk['text']` and
`chunk.get('metadata', {})` are read. -/
structure EChunk where
  text : String
deriving DecidableEq, Repr

/-- earthing-report-generator `VectorStore.add_chunks` (vector_store.py
lines 109-140).  There is no length check: with empty `chunks` the
function returns silently whatever `embeddings` is; otherwise the
documents, timestamp ids and the caller's `embeddings` are handed to
`collection.add` (length validation, if any, happens inside the
external ChromaDB library, not in this code). -/
def earthingAddChunks (timestamp : Nat) (store : List Entry)
    (chunks : List EChunk) (_embeddings : List (List ℚ)) : List Entry :=
  if chunks.length = 0 then store
  else
    store ++ (List.zip (earthingChunkIds timestamp chunks.length) chunks).map
      (fun p => ⟨p.1, "", p.2.text⟩)

/-! ## report-generator `VectorStore._flatten_metadata` -/

/-- A Python metadata value as `_flatten_metadata` distinguishes them:
the scalars `str`, `int`, `float`, `bool`, plus `list`, nested `dict`,
and any other object (carried with its `str()` representation). -/
inductive MetaValue where
  | s (v : String)
  | i (v : Int)
  | f (v : ℚ)
  | b (v : Bool)
  | list (vs : List MetaValue)
  | dict (kvs : List (String × MetaValue))
  | other (pyStr : String)
deriving Repr

/-- A value that `_flatten_metadata` may store: only the scalar shapes
survive (ChromaDB requirement). -/
inductive FlatValue where
  | s (v : String)
  | i (v : Int)
  | f (v : ℚ)
  | b (v : Bool)
deriving DecidableEq, Repr

/-- Python `str(value)` for the values list flattening touches.  The
exact rendering of floats, lists and dicts is irrelevant to the claims;
scalars render in the Python way. -/
def pyStrOf : MetaValue → String
  | .s v => v
  | .i v => toString v
  | .f v => toString v
  | .b true => "True"
  | .b false => "False"
  | .list _ => "<list>"
  | .dict _ => "<dict>"
  | .other r => r

/-- The per-value branch of `_flatten_metadata` (vector_store.py lines
223-233): scalars are kept; a list becomes
`",".join(str(v) for v in value)`; a nested dict hits `continue` and
produces nothing; anything else becomes `str(value)`. -/
def flattenValue : MetaValue → Option FlatValue
  | .s v => some (.s v)
  | .i v => some (.i v)
  | .f v => some (.f v)
  | .b v => some (.b v)
  | .list vs => some (.s (String.intercalate "," (vs.map pyStrOf)))
  | .dict _ => none
  | .other r => some (.s r)

/-- report-generator `VectorStore._flatten_metadata` (vector_store.py
lines 216-235): iterate the items in order, keeping the flattened value
of every key except those whose value is a nested dict, which are
skipped. -/
def flattenMetadata : List (String × MetaValue) → List (String × FlatValue)
  | [] => []
  | (k, v) :: rest =>
    match flattenValue v with
    | none => flattenMetadata rest
    | some w => (k, w) :: flattenMetadata rest

/-! ## Helper lemmas -/

lemma slice_zero_length (t : Text) : slice t 0 t.length = t := by
  simp [slice]

/-- Every chunk the `_chunk_text` loop emits beyond `acc` passed the
`len(chunk_text) > 50` filter and is the stripped content of a window
`text[s:e]`. -/
lemma chunkLoop_mem (text : Text) (S O : Nat) :
    ∀ (fuel start : Nat) (acc : List Text), ∀ c ∈ chunkLoop text S O fuel start acc,
      c ∈ acc ∨ (50 < c.length ∧ ∃ s e, c = strip (slice text s e)) := by
  intro fuel
  induction fuel with
  | zero =>
    intro start acc c hc
    rw [chunkLoop] at hc
    exact Or.inl (List.mem_reverse.mp hc)
  | succ fuel ih =>
    intro start acc c hc
    rw [chunkLoop] at hc
    by_cases hlt : start < text.length
    · rw [if_pos hlt] at hc
      rcases ih _ _ c hc with hacc | hgood
      · by_cases hkeep :
          50 < (strip (slice text start
            (if pickEnd text S start ≤ start then start + 1
             else pickEnd text S start))).length
        · rw [if_pos hkeep] at hacc
          rcases List.mem_cons.mp hacc with hc' | hc'
          · exact Or.inr ⟨hc' ▸ hkeep, _, _, hc'⟩
          · exact Or.inl hc'
        · rw [if_neg hkeep] at hacc
          exact Or.inl hacc
      · exact Or.inr hgood
    · rw [if_neg hlt] at hc
      exact Or.inl (List.mem_reverse.mp hc)

lemma mem_insertBySimilarity {c r : RetrieveResult} {l : List RetrieveResult} :
    c ∈ insertBySimilarity r l ↔ c = r ∨ c ∈ l := by
  induction l with
  | nil => simp [insertBySimilarity]
  | cons x xs ih =>
    by_cases h : x.similarity ≤ r.similarity
    · simp [insertBySimilarity, h]
    · simp [insertBySimilarity, h, ih]
      tauto

lemma mem_sortBySimilarity {c : RetrieveResult} {l : List RetrieveResult} :
    c ∈ sortBySimilarity l ↔ c ∈ l := by
  induction l with
  | nil => simp [sortBySimilarity]
  | cons x xs ih =>
    simp [sortBySimilarity, mem_insertBySimilarity, ih]

lemma sorted_insertBySimilarity (r : RetrieveResult) (l : List RetrieveResult)
    (h : List.Sorted (fun a b => b.similarity ≤ a.similarity) l) :
    List.Sorted (fun a b => b.similarity ≤ a.similarity)
      (insertBySimilarity r l) := by
  induction l with
  | nil => simp [insertBySimilarity]
  | cons x xs ih =>
    rcases List.sorted_cons.mp h with ⟨hx, hxs⟩
    by_cases hle : x.similarity ≤ r.similarity
    · rw [insertBySimilarity, if_pos hle]
      refine List.sorted_cons.mpr ⟨?_, h⟩
      intro b hb
      rcases List.mem_cons.mp hb with hb' | hb'
      · exact hb' ▸ hle
      · exact le_trans (hx b hb') hle
    · rw [insertBySimilarity, if_neg hle]
      refine List.sorted_cons.mpr ⟨?_, ih hxs⟩
      intro b hb
      rcases mem_insertBySimilarity.mp hb with hb' | hb'
      · exact hb' ▸ le_of_lt (lt_of_not_le hle)
      · exact hx b hb'

lemma sorted_sortBySimilarity (l : List RetrieveResult) :
    List.Sorted (fun a b => b.similarity ≤ a.similarity)
      (sortBySimilarity l) := by
  induction l with
  | nil => simp [sortBySimilarity]
  | cons x xs ih => exact sorted_insertBySimilarity x _ ih

/-- Every key `flattenMetadata` emits comes from the input mapping. -/
lemma mem_flattenMetadata_keys {k : String} {w : FlatValue}
    {md : List (String × MetaValue)} (h : (k, w) ∈ flattenMetadata md) :
    k ∈ md.map Prod.fst := by
  induction md with
  | nil => simp [flattenMetadata] at h
  | cons kv rest ih =>
    obtain ⟨k0, v0⟩ := kv
    rw [flattenMetadata] at h
    cases hv : flattenValue v0 with
    | none =>
      rw [hv] at h
      simp [ih h]
    | some w0 =>
      rw [hv] at h
      rcases List.mem_cons.mp h with h' | h'
      · simp at h'
        simp [h'.1]
      · simp [ih h']

/-- A value that is not a nested dict always flattens to something. -/
lemma flattenValue_isSome_of_not_dict {v : MetaValue}
    (h : ∀ kvs, v ≠ MetaValue.dict kvs) : ∃ w, flattenValue v = some w := by
  cases v with
  | dict kvs => exact absurd rfl (h kvs)
  | s v => exact ⟨_, rfl⟩
  | i v => exact ⟨_, rfl⟩
  | f v => exact ⟨_, rfl⟩
  | b v => exact ⟨_, rfl⟩
  | list vs => exact ⟨_, rfl⟩
  | other r => exact ⟨_, rfl⟩

/-! ## Claims -/

/-- A 13-character input on which report-generator `_split_text` with
`chunk_size = 5`, `overlap = 3` (a valid configuration, `0 ≤ O < S`)
never terminates: the window `text[0:5] = "b. cc"` has its last
`\.\s+` match ending at offset 3, so `end = 3 < len(text)` and
`start = end - overlap = 0` again, forever. -/
def rgStuckText : Text := "b. cccccccccc".toList

/-- C1: the claim states that for `S > 0` and `0 ≤ O < S` the chunking
loop always terminates within `⌈L/(S−O)⌉ + c` iterations.  The
earthing-report-generator `_chunk_text` satisfies this via its
`max_iterations` break, but the also-cited report-generator
`_split_text` has no forward-progress guard: on `rgStuckText` with
`S = 5`, `O = 3` the next start position equals the current one, so
`start` is `0` after every number of iterations while
`start < len(text)` keeps holding — the loop never exits. -/
theorem c1_rg_split_text_never_terminates :
    rgNextStart rgStuckText 5 3 0 = 0 ∧ 0 < rgStuckText.length ∧
    ∀ n : Nat, (fun s => (rgNextStart rgStuckText 5 3 s).toNat)^[n] 0 = 0 := by
  refine ⟨rfl, by decide, ?_⟩
  intro n
  induction n with
  | zero => rfl
  | succ n ih =>
    rw [Function.iterate_succ_apply', ih]
    rfl

/-- C2: the claim states that `overlap ≥ target_size` never raises.
But earthing-report-generator `_chunk_text` computes
`max_iterations = len(text) // (chunk_size - overlap) + 10` whenever
`len(text) > chunk_size`, which is a `ZeroDivisionError` when
`overlap = chunk_size`: here `chunk_size = overlap = 5` on a 6-character
text. -/
theorem c2_overlap_eq_size_raises :
    chunkText 5 5 (List.replicate 6 'a') = .error () := rfl

/-- C3 counterexample: report-generator `VectorStore.search` reports
`similarity_score = 1 - distance` to its callers, not `1 - distance/2`:
at the cosine-distance extreme `d = 2` the reported similarity is `-1`,
outside `[0,1]` and different from `1 - 2/2 = 0`. -/
theorem c3_search_score_not_half_distance :
    searchSimilarityScore 2 = -1 ∧ ¬ 0 ≤ searchSimilarityScore 2 ∧
    searchSimilarityScore 2 ≠ 1 - 2 / 2 := by
  norm_num [searchSimilarityScore]

/-- C3 amended: the `1 − d/2` conversion and the `[0,1]` range do hold
for the similarity that earthing-report-generator `Retriever.retrieve`
reports: for every distance `d ∈ [0,2]` its similarity `1 - d/2` lies
in `[0,1]`. -/
theorem c3_retriever_similarity_range (d : ℚ) (h0 : 0 ≤ d) (h2 : d ≤ 2) :
    0 ≤ retrieverSimilarity d ∧ retrieverSimilarity d ≤ 1 := by
  unfold retrieverSimilarity
  constructor <;> linarith

/-- C3 witness: the range bound at the concrete distance `d = 1`. -/
theorem c3_retriever_similarity_range_witness :
    0 ≤ retrieverSimilarity 1 ∧ retrieverSimilarity 1 ≤ 1 :=
  c3_retriever_similarity_range 1 (by norm_num) (by norm_num)

/-- C4 counterexample: `Retriever.retrieve` output is not *strictly*
descending: two stored entries at the same distance 1 both get
similarity `1/2`, and the returned similarity sequence `[1/2, 1/2]` is
not a strictly-descending chain. -/
theorem c4_equal_similarities_not_strictly_descending :
    (retrieve ["a", "b"] [1, 1] [[], []] 0).map (fun r => r.similarity) =
      [1/2, 1/2] ∧
    ¬ List.Chain' (fun a b : ℚ => b < a)
        ((retrieve ["a", "b"] [1, 1] [[], []] 0).map
          (fun r => r.similarity)) := by
  have h : retrieve ["a", "b"] [1, 1] [[], []] 0 =
      [⟨"a", [], 1/2, 1⟩, ⟨"b", [], 1/2, 1⟩] := by
    rw [retrieve, if_neg (by simp)]
    norm_num [List.range_succ, List.filterMap_cons, retrieverSimilarity,
      sortBySimilarity, insertBySimilarity]
  rw [h]
  refine ⟨by norm_num, ?_⟩
  norm_num [List.chain'_cons]

/-- C4 amended: every result list of `Retriever.retrieve` is sorted by
non-increasing (weakly descending) similarity, and every returned
result has `similarity ≥ min_similarity`; results below the threshold
are skipped by the `continue`, never returned. -/
theorem c4_retrieve_sorted_and_thresholded (documents : List String)
    (distances : List ℚ) (metadatas : List (List (String × String)))
    (minSimilarity : ℚ) :
    List.Sorted (fun a b => b.similarity ≤ a.similarity)
      (retrieve documents distances metadatas minSimilarity) ∧
    ∀ r ∈ retrieve documents distances metadatas minSimilarity,
      minSimilarity ≤ r.similarity := by
  constructor
  · rw [retrieve]
    split
    · simp
    · exact sorted_sortBySimilarity _
  · intro r hr
    rw [retrieve] at hr
    split at hr
    · simp at hr
    · rcases List.mem_filterMap.mp (mem_sortBySimilarity.mp hr) with ⟨i, _, heq⟩
      cases hd : distances[i]? with
      | none => rw [hd] at heq; simp at heq
      | some d =>
        rw [hd] at heq
        simp at heq
        obtain ⟨hge, hres⟩ := heq
        rw [← hres]
        exact hge

/-- C4 witness: for the one-document query at distance 0 with threshold
0, the output is sorted and its member `⟨"a", [], 1, 0⟩` meets the
threshold. -/
theorem c4_retrieve_sorted_and_thresholded_witness :
    List.Sorted (fun a b => b.similarity ≤ a.similarity)
      (retrieve ["a"] [0] [[]] 0) ∧
    (0 : ℚ) ≤ (RetrieveResult.mk "a" [] 1 0).similarity := by
  have h : retrieve ["a"] [0] [[]] 0 = [⟨"a", [], 1, 0⟩] := by
    rw [retrieve, if_neg (by simp)]
    norm_num [List.range_succ, List.filterMap_cons, retrieverSimilarity,
      sortBySimilarity, insertBySimilarity]
  exact ⟨(c4_retrieve_sorted_and_thresholded ["a"] [0] [[]] 0).1,
    (c4_retrieve_sorted_and_thresholded ["a"] [0] [[]] 0).2 _
      (by rw [h]; exact List.mem_singleton.mpr rfl)⟩

/-- C5 counterexample: a non-empty document of 15 spaces with
`chunk_size = 10`, `overlap = 2` yields **zero** chunks: the fallback
section is the whole text, it is longer than `chunk_size`, and every
window strips to the empty string, so everything is discarded by
`chunk_text and len(chunk_text) > 50` — and the floor is never waived. -/
theorem c5_nonempty_input_zero_chunks :
    chunkDocument 10 2 (List.replicate 15 ' ') = .ok [] ∧
    List.replicate 15 ' ' ≠ ([] : Text) :=
  ⟨rfl, by decide⟩

/-- C5 amended: `_chunk_text` on a section no longer than `chunk_size`
returns exactly the single chunk `text.strip()` (so short non-empty
sections always contribute), while on longer sections every returned
chunk passed the 50-character substantiveness floor — the floor is
never waived, so a long pathological section (and hence a non-empty
document) can contribute no chunk at all. -/
theorem c5_floor_never_waived (S O : Nat) (text : Text) (l : List Text)
    (h : chunkText S O text = .ok l) :
    (text.length ≤ S → l = [strip text]) ∧
    (S < text.length → ∀ c ∈ l, 50 < c.length) := by
  rw [chunkText] at h
  by_cases hle : text.length ≤ S
  · rw [if_pos hle] at h
    exact ⟨fun _ => (Except.ok.inj h).symm, fun hS => absurd hle (by omega)⟩
  · rw [if_neg hle, maxIterations] at h
    by_cases hSO : S = O
    · rw [if_pos hSO] at h
      simp at h
    · rw [if_neg hSO] at h
      refine ⟨fun h' => absurd h' hle, fun _ c hc => ?_⟩
      rw [← Except.ok.inj h] at hc
      rcases chunkLoop_mem text S O _ 0 [] c hc with h0 | ⟨h50, _⟩
      · simp at h0
      · exact h50

/-- C5 witness: a 2-character section below `chunk_size = 10` yields
the single stripped chunk. -/
theorem c5_floor_never_waived_witness :
    ([['h', 'i']] : List Text) = [strip ['h', 'i']] :=
  (c5_floor_never_waived 10 2 ['h', 'i'] [['h', 'i']] rfl).1 (by decide)

/-- C6 counterexample: the ids of earthing-report-generator
`VectorStore.add_chunks` embed `int(time.time() * 1000)`: storing the
same single chunk at two different timestamps yields different stored
entries (ids `chunk_1_0` vs `chunk_2_0`), so the id is not a function
of the source document and chunk index. -/
theorem c6_earthing_ids_not_stable :
    earthingAddChunks 1 [] [⟨"t"⟩] [[1]] ≠ earthingAddChunks 2 [] [⟨"t"⟩] [[1]] := by
  decide

/-- C6 amended: in report-generator, ids are the stable
`{stem}_chunk_{chunk_id}`, and re-ingesting the same chunks after
`delete_by_source` leaves the index with exactly the entry count of a
single ingestion (provided the prior contents did not already use that
source id, and all chunks carry it). -/
theorem c6_delete_then_readd_preserves_count (store : List Entry)
    (chunks : List RGChunk) (embeddings : List (List ℚ)) (src : String)
    (l1 l2 : List Entry)
    (hstore : ∀ e ∈ store, e.sourceFile ≠ src)
    (hchunks : ∀ c ∈ chunks, c.sourceFile = src)
    (h1 : reportGenAddChunks store chunks embeddings = .ok l1)
    (h2 : reportGenAddChunks (deleteBySource l1 src) chunks embeddings = .ok l2) :
    l2.length = l1.length := by
  rw [reportGenAddChunks] at h1 h2
  by_cases hlen : chunks.length ≠ embeddings.length
  · rw [if_pos hlen] at h1
    simp at h1
  · rw [if_neg hlen] at h1 h2
    have hl1 : l1 = store ++ chunks.map rgEntryOf := (Except.ok.inj h1).symm
    have hdel : deleteBySource l1 src = store := by
      rw [hl1, deleteBySource, List.filter_append]
      have hs : store.filter (fun e => e.sourceFile ≠ src) = store :=
        List.filter_eq_self.mpr (fun e he => by simp [hstore e he])
      have hn : (chunks.map rgEntryOf).filter (fun e => e.sourceFile ≠ src) = [] := by
        rw [List.filter_eq_nil_iff]
        intro e he
        rcases List.mem_map.mp he with ⟨c, hc, rfl⟩
        simp [rgEntryOf, hchunks c hc]
      rw [hs, hn, List.append_nil]
    rw [hdel] at h2
    have hl2 : l2 = store ++ chunks.map rgEntryOf := (Except.ok.inj h2).symm
    rw [hl1, hl2]

/-- C6 witness: one foreign entry plus one chunk of `doc.pdf`,
re-ingested after `delete_by_source`. -/
theorem c6_delete_then_readd_preserves_count_witness :
    ([⟨"k", "other.pdf", "u"⟩, rgEntryOf ⟨"t", "doc.pdf", 0⟩] : List Entry).length =
    ([⟨"k", "other.pdf", "u"⟩, rgEntryOf ⟨"t", "doc.pdf", 0⟩] : List Entry).length :=
  c6_delete_then_readd_preserves_count [⟨"k", "other.pdf", "u"⟩]
    [⟨"t", "doc.pdf", 0⟩] [[1]] "doc.pdf" _ _
    (by decide) (by decide) rfl rfl

/-- C7 counterexample: earthing-report-generator `add_chunks` has no
length check: called with zero chunks and one embedding (a mismatched
pair) it returns silently, surfacing no error to the caller. -/
theorem c7_earthing_no_length_check :
    earthingAddChunks 1 [] [] [[1]] = [] ∧
    ([] : List EChunk).length ≠ [[(1 : ℚ)]].length :=
  ⟨rfl, by decide⟩

/-- C7 amended: report-generator `add_chunks` does reject every
mismatched call with a `ValueError` before storing anything. -/
theorem c7_rg_add_chunks_rejects_mismatch (store : List Entry)
    (chunks : List RGChunk) (embeddings : List (List ℚ))
    (h : chunks.length ≠ embeddings.length) :
    reportGenAddChunks store chunks embeddings =
      .error "Number of chunks must match embeddings" := by
  rw [reportGenAddChunks, if_pos h]

/-- C7 witness: one chunk against zero embeddings is rejected. -/
theorem c7_rg_add_chunks_rejects_mismatch_witness :
    reportGenAddChunks [] [⟨"t", "d.pdf", 0⟩] [] =
      .error "Number of chunks must match embeddings" :=
  c7_rg_add_chunks_rejects_mismatch [] [⟨"t", "d.pdf", 0⟩] [] (by decide)

/-- The C8 document: 99 `a`s, newline, 10 `b`s, newline, 99 `c`s.  With
`chunk_size = 100`, `overlap = 0` the middle window strips to the 10
`b`s, is discarded by the 50-character floor, and the `b` span appears
in no chunk. -/
def c8Text : Text :=
  List.replicate 99 'a' ++ '\n' ::
    (List.replicate 10 'b' ++ '\n' :: List.replicate 99 'c')

set_option maxRecDepth 10000 in
/-- C8 counterexample: the chunks of `c8Text` are exactly the `a` run
and the `c` run; the character `'b'` occurs in the document but in no
chunk, so no concatenation of the chunks (with or without overlap
removal) reconstructs the text up to whitespace trimming — a
non-whitespace interior span is absent from every chunk. -/
theorem c8_interior_span_lost :
    chunkDocument 100 0 c8Text =
      .ok [⟨List.replicate 99 'a', "Introduction".toList⟩,
           ⟨List.replicate 99 'c', "Introduction".toList⟩] ∧
    'b' ∈ c8Text ∧
    ([⟨List.replicate 99 'a', "Introduction".toList⟩,
      ⟨List.replicate 99 'c', "Introduction".toList⟩] : List Chunk).all
        (fun ch => ch.text.all (fun c => !(c = 'b'))) = true :=
  ⟨rfl, by decide, by decide⟩

/-- C8 amended: what does hold is that every chunk `_chunk_text`
returns is the stripped content of one contiguous window `text[s:e]` of
the section text; coverage of the whole text fails because windows
whose stripped content is 50 characters or shorter are dropped. -/
theorem c8_chunks_are_trimmed_windows (S O : Nat) (text : Text)
    (l : List Text) (h : chunkText S O text = .ok l) :
    ∀ c ∈ l, ∃ s e, c = strip (slice text s e) := by
  rw [chunkText] at h
  by_cases hle : text.length ≤ S
  · rw [if_pos hle] at h
    intro c hc
    rw [← Except.ok.inj h] at hc
    rcases List.mem_singleton.mp hc with rfl
    exact ⟨0, text.length, by rw [slice_zero_length]⟩
  · rw [if_neg hle, maxIterations] at h
    by_cases hSO : S = O
    · rw [if_pos hSO] at h
      simp at h
    · rw [if_neg hSO] at h
      intro c hc
      rw [← Except.ok.inj h] at hc
      rcases chunkLoop_mem text S O _ 0 [] c hc with h0 | ⟨_, hs⟩
      · simp at h0
      · exact hs

/-- C8 witness: the single chunk of a short section is the strip of a
window of it. -/
theorem c8_chunks_are_trimmed_windows_witness :
    ∃ s e, (['h', 'i'] : Text) = strip (slice ['h', 'i'] s e) :=
  c8_chunks_are_trimmed_windows 10 2 ['h', 'i'] [['h', 'i']] rfl
    ['h', 'i'] (by decide)

/-- C9 counterexample: `_flatten_metadata` hits `continue` on a nested
dict: the key `"a"` is present in the input but absent from the output,
with no error and no stringification — it is silently dropped. -/
theorem c9_nested_dicts_silently_dropped :
    flattenMetadata [("a", MetaValue.dict [])] = [] := rfl

/-- C9 amended: flattening is total (never fails) and, for a mapping
with distinct keys, keeps every key whose value is not a nested dict
(scalars as themselves, lists joined to a string, other objects
stringified — the output type admits only scalars), while every key
holding a nested dict is silently dropped from the output. -/
theorem c9_flatten_keeps_non_dict_drops_dict
    (md : List (String × MetaValue)) (hnd : (md.map Prod.fst).Nodup) :
    ∀ k v, (k, v) ∈ md →
      ((∃ kvs, v = MetaValue.dict kvs) → ∀ w, (k, w) ∉ flattenMetadata md) ∧
      ((∀ kvs, v ≠ MetaValue.dict kvs) → ∃ w, (k, w) ∈ flattenMetadata md) := by
  induction md with
  | nil => intro k v hkv; simp at hkv
  | cons kv rest ih =>
    obtain ⟨k0, v0⟩ := kv
    rw [List.map_cons, List.nodup_cons] at hnd
    obtain ⟨hk0, hrest⟩ := hnd
    intro k v hkv
    constructor
    · rintro ⟨kvs, rfl⟩ w hw
      rw [flattenMetadata] at hw
      rcases List.mem_cons.mp hkv with hhead | htail
      · injection hhead with h1 h2
        subst h1
        rw [← h2] at hw
        simp only [flattenValue] at hw
        exact hk0 (mem_flattenMetadata_keys hw)
      · cases hv0 : flattenValue v0 with
        | none =>
          rw [hv0] at hw
          exact (ih hrest k _ htail).1 ⟨kvs, rfl⟩ w hw
        | some w0 =>
          rw [hv0] at hw
          rcases List.mem_cons.mp hw with hcons | hmem
          · injection hcons with hk1 _
            subst hk1
            exact hk0 (List.mem_map.mpr ⟨(k, MetaValue.dict kvs), htail, rfl⟩)
          · exact (ih hrest k _ htail).1 ⟨kvs, rfl⟩ w hmem
    · intro hnotd
      rcases List.mem_cons.mp hkv with hhead | htail
      · injection hhead with h1 h2
        subst h1
        obtain ⟨w', hw'⟩ := flattenValue_isSome_of_not_dict hnotd
        refine ⟨w', ?_⟩
        rw [flattenMetadata, ← h2, hw']
        exact List.mem_cons_self _ _
      · obtain ⟨w', hw'⟩ := (ih hrest k v htail).2 hnotd
        refine ⟨w', ?_⟩
        rw [flattenMetadata]
        cases hv0 : flattenValue v0 with
        | none => exact hw'
        | some w0 => exact List.mem_cons_of_mem _ hw'

/-- C9 witness: in `{"a": {}, "b": 3}` the dict-valued key `"a"` is
absent from the flattened output (here: not mapped to `0`), while the
mapping flattens without error. -/
theorem c9_flatten_keeps_non_dict_drops_dict_witness :
    ("a", FlatValue.i 0) ∉
      flattenMetadata [("a", MetaValue.dict []), ("b", MetaValue.i 3)] :=
  (c9_flatten_keeps_non_dict_drops_dict
      [("a", MetaValue.dict []), ("b", MetaValue.i 3)] (by simp)
      "a" (MetaValue.dict []) (List.mem_cons_self _ _)).1
    ⟨[], rfl⟩ (FlatValue.i 0)

/-- C10 counterexample: a document consisting of one space (non-empty,
shorter than `target_size`) yields exactly one chunk whose text is
empty after trimming: the short-section path of `_chunk_text` returns
`text.strip()` unconditionally. -/
theorem c10_whitespace_doc_empty_chunk :
    chunkDocument 10 2 [' '] = .ok [⟨[], "Document".toList⟩] := rfl

/-- C10 amended: chunks produced by the windowed loop (sections longer
than `chunk_size`) are never empty — they carry more than 50 characters
— so an empty chunk can only be the single `text.strip()` chunk of a
section that fits in `chunk_size` and is whitespace-only. -/
theorem c10_empty_chunk_only_from_short_whitespace (S O : Nat)
    (text : Text) (l : List Text) (h : chunkText S O text = .ok l) :
    ∀ c ∈ l, c = [] → text.length ≤ S ∧ strip text = [] := by
  rw [chunkText] at h
  by_cases hle : text.length ≤ S
  · rw [if_pos hle] at h
    intro c hc hce
    rw [← Except.ok.inj h] at hc
    rcases List.mem_singleton.mp hc with rfl
    exact ⟨hle, hce⟩
  · rw [if_neg hle, maxIterations] at h
    by_cases hSO : S = O
    · rw [if_pos hSO] at h
      simp at h
    · rw [if_neg hSO] at h
      intro c hc hce
      rw [← Except.ok.inj h] at hc
      rcases chunkLoop_mem text S O _ 0 [] c hc with h0 | ⟨h50, _⟩
      · simp at h0
      · rw [hce] at h50
        simp at h50

/-- C10 witness: the whitespace-only one-space section. -/
theorem c10_empty_chunk_only_from_short_whitespace_witness :
    ([' '] : Text).length ≤ 10 ∧ strip [' '] = [] :=
  c10_empty_chunk_only_from_short_whitespace 10 2 [' '] [[]] rfl
    [] (by decide) rfl

end ContextReports
